import Mathlib

/-!
Verification of the llmrouter gateway (paularlott/llmrouter).

This file gives a shallow embedding, in Lean 4, of the routing core of the
gateway (router.go), of the tool-calling driver, of the streaming
pass-through loop, and of the script result library (mcp_library.go), and
proves the frozen specification claims about them.

Conventions of the embedding:
  - Go maps are modelled as association lists; Go map iteration order is
    nondeterministic, the association list fixes one linearisation
    (first-seen order), which is the determinisation the specification
    itself allows for tie-breaks.
  - Machine integers are modelled as Nat, except where the source uses a
    sentinel value (the least-loaded scan uses minCompletions = -1, kept
    as Int).
  - Upstream HTTP calls, the JSON codec and the token estimator are
    external collaborators of the code under verification; they enter the
    model as function parameters (oracles), never as stubs of repo code.
  - Errors are the error strings the Go code builds; fallible operations
    return Except String.
-/

/-- Whether the pattern character list is a leading run of the other
list (Go strings.HasPrefix on the underlying characters; every string
these helpers see is ASCII, where Go bytes and code points agree). -/
def charsLead : List Char → List Char → Bool
  | [], _ => true
  | _ :: _, [] => false
  | p :: ps, c :: cs => p == c && charsLead ps cs

/-- Whether the pattern occurs inside the list (Go strings.Contains on
the underlying characters; the empty pattern occurs everywhere). -/
def charsContain (pat : List Char) : List Char → Bool
  | [] => pat.isEmpty
  | c :: rest => charsLead pat (c :: rest) || charsContain pat rest

/-- Go strings.Contains. -/
def goContains (s pat : String) : Bool :=
  charsContain pat.data s.data

/-- Go strings.HasPrefix. -/
def goStartsWith (s pat : String) : Bool :=
  charsLead pat.data s.data

/-- Go strings.ToLower (character-wise lowering; all matched patterns
are ASCII). -/
def goToLower (s : String) : String :=
  ⟨s.data.map Char.toLower⟩

/-- Go strings.TrimPrefix: drops the pattern when it is a leading run of
the string, otherwise returns the string unchanged. -/
def goTrimPre (s pat : String) : String :=
  if goStartsWith s pat then ⟨s.data.drop pat.data.length⟩ else s

/-- Provider record (router.go): the mutable health and load state of one
configured upstream. BaseURL, token and the HTTP client are inert for the
claims and are not carried. -/
structure Provider where
  name : String
  enabled : Bool
  healthy : Bool
  activeCompletions : Nat
  staticModels : Bool
  allowlist : List String
  denylist : List String
deriving DecidableEq, Repr

/-- Static configuration of one provider (config.Providers entry). -/
structure ProviderConfig where
  name : String
  enabled : Bool
  models : List String
  allowlist : List String
  denylist : List String
deriving DecidableEq, Repr

/-- Router state: the provider registry (Go map name to Provider), the
model index (Go map model id to slice of provider names), and the config
the static model lists are re-read from. -/
structure RouterState where
  providers : List (String × Provider)
  modelMap : List (String × List String)
  config : List ProviderConfig
deriving DecidableEq, Repr

/-- Lookup in the provider registry (r.Providers[name]). -/
def lookupProv (s : RouterState) (n : String) : Option Provider :=
  (s.providers.find? (fun pr => pr.1 == n)).map (·.2)

/-- Lookup in the model index (r.ModelMap[model]). -/
def lookupModel (s : RouterState) (m : String) : Option (List String) :=
  (s.modelMap.find? (fun e => e.1 == m)).map (·.2)

/-- Point update of one provider record; a no-op when the name is not
registered (matching Go, where mutation goes through the map pointer). -/
def updateProv (s : RouterState) (n : String) (f : Provider → Provider) : RouterState :=
  { s with providers := s.providers.map (fun pr => if pr.1 == n then (pr.1, f pr.2) else pr) }

/-- NewRouter (router.go): providers are built from config, disabled
entries are skipped, all providers start healthy with a zero active
counter; StaticModels is set iff the config lists models; the model map
starts empty. -/
def initRouter (cfg : List ProviderConfig) : RouterState :=
  { providers := (cfg.filter (·.enabled)).map (fun pc =>
      (pc.name,
       { name := pc.name
         enabled := pc.enabled
         healthy := true
         activeCompletions := 0
         staticModels := !pc.models.isEmpty
         allowlist := pc.allowlist
         denylist := pc.denylist }))
    modelMap := []
    config := cfg }

/-- shouldIncludeModel (router.go): denylist first; if an allowlist is
present the model must be on it; otherwise included. -/
def shouldIncludeModel (model : String) (allowlist denylist : List String) : Bool :=
  if denylist.length > 0 && denylist.contains model then false
  else if allowlist.length > 0 then allowlist.contains model
  else true

/-- DisableProvider (router.go): no-op on an unknown or already-unhealthy
provider; otherwise mark unhealthy, strip the name from every model map
entry, and delete entries left empty. The reason argument is only
logged. -/
def disableProvider (s : RouterState) (n _reason : String) : RouterState :=
  match lookupProv s n with
  | none => s
  | some prov =>
    if prov.healthy = false then s
    else
      let s1 := updateProv s n (fun p => { p with healthy := false })
      let mm := (s1.modelMap.map (fun e => (e.1, e.2.filter (fun q => q != n)))).filter
        (fun e => !e.2.isEmpty)
      { s1 with modelMap := mm }

/-- EnableProvider (router.go): no-op on an unknown or already-healthy
provider; otherwise mark healthy. The model map is not touched. -/
def enableProvider (s : RouterState) (n : String) : RouterState :=
  match lookupProv s n with
  | none => s
  | some prov =>
    if prov.healthy = true then s
    else updateProv s n (fun p => { p with healthy := true })

/-- incrementActiveCompletions (router.go): bump the counter when the
provider is registered. -/
def incrementActiveCompletions (s : RouterState) (n : String) : RouterState :=
  updateProv s n (fun p => { p with activeCompletions := p.activeCompletions + 1 })

/-- decrementActiveCompletions (router.go): decrement only when the
counter is positive, so it never underflows. -/
def decrementActiveCompletions (s : RouterState) (n : String) : RouterState :=
  updateProv s n (fun p =>
    if p.activeCompletions > 0 then { p with activeCompletions := p.activeCompletions - 1 } else p)

/-- Loop body of the least-loaded scan of GetProviderForModel
(router.go): skip unregistered or disabled names; take a name when the
sentinel -1 is still set or its active counter is strictly below the
running minimum (so the first name attaining the minimum wins ties). -/
def llStep (s : RouterState) (acc : String × Int) (name : String) : String × Int :=
  match lookupProv s name with
  | none => acc
  | some prov =>
    if !prov.enabled then acc
    else if acc.2 == -1 || ((prov.activeCompletions : Int) < acc.2) then
      (name, (prov.activeCompletions : Int))
    else acc

/-- Least-loaded scan of GetProviderForModel (router.go): fold the loop
body over the slice of provider names starting from the sentinel
accumulator ("", -1). -/
def leastLoadedFold (s : RouterState) (ps : List String) : String × Int :=
  ps.foldl (llStep s) ("", -1)

/-- GetProviderForModel (router.go): unknown model fails with the
not-found error; a single-provider entry is returned as is; otherwise the
least-loaded scan runs and an empty selection fails with the no-enabled
error. -/
def getProviderForModel (s : RouterState) (model : String) : Except String String :=
  match lookupModel s model with
  | none => .error ("model " ++ model ++ " not found in any provider")
  | some providers =>
    match providers with
    | [p] => .ok p
    | _ =>
      let sel := leastLoadedFold s providers
      if sel.1 == "" then .error ("no enabled provider found for model " ++ model)
      else .ok sel.1

/-- Static model list of a provider, re-read from config by name
(RefreshModels, static branch). -/
def staticModelsFor (s : RouterState) (name : String) : List String :=
  match s.config.find? (fun pc => pc.name == name) with
  | some pc => pc.models
  | none => []

/-- Accumulate one (model, provider) pair into the grouped model set,
keeping first-seen order of models and of providers and deduplicating
(the Go code uses a map of maps). -/
def addPair : List (String × List String) → String → String → List (String × List String)
  | [], m, p => [(m, [p])]
  | (m', ps) :: rest, m, p =>
    if m' == m then (m', if ps.contains p then ps else ps ++ [p]) :: rest
    else (m', ps) :: addPair rest m p

/-- Group a pair list into the final model map (the modelSet to ModelMap
build at the end of RefreshModels). -/
def groupPairs (pairs : List (String × String)) : List (String × List String) :=
  pairs.foldl (fun acc pr => addPair acc pr.1 pr.2) []

/-- RefreshModels (router.go), sequentialised: clear the map; static pass
adds the configured models of every enabled static provider (healthy or
not), filtered by allow/deny; dynamic pass visits every enabled, healthy,
non-static provider, quarantines it on a failed fetch ("model fetch
failed"), re-admits it on a successful fetch if it had turned unhealthy,
and adds the fetched models filtered by allow/deny; finally the grouped
pairs become the new map. The concurrent fan-out of the source is
linearised into one fold, a legal interleaving. -/
def refreshModels (s : RouterState) (fetch : String → Except String (List String)) :
    RouterState :=
  let s0 := { s with modelMap := ([] : List (String × List String)) }
  let staticPairs := s0.providers.foldl (fun (acc : List (String × String)) pr =>
    if pr.2.enabled && pr.2.staticModels then
      acc ++ ((staticModelsFor s0 pr.1).filter
        (fun m => shouldIncludeModel m pr.2.allowlist pr.2.denylist)).map (fun m => (m, pr.1))
    else acc) []
  let dyn := s0.providers.foldl (fun (st : RouterState × List (String × String)) pr =>
    match lookupProv st.1 pr.1 with
    | none => st
    | some prov =>
      if !prov.enabled || !prov.healthy || prov.staticModels then st
      else
        match fetch pr.1 with
        | .error e => (disableProvider st.1 pr.1 ("model fetch failed: " ++ e), st.2)
        | .ok models =>
          let cur := if prov.healthy = false then enableProvider st.1 pr.1 else st.1
          (cur, st.2 ++ (models.filter
            (fun m => shouldIncludeModel m prov.allowlist prov.denylist)).map
              (fun m => (m, pr.1)))) (s0, staticPairs)
  { dyn.1 with modelMap := groupPairs dyn.2 }

/-- Connection error patterns of isConnectionError (router.go), matched
case-insensitively by lowercasing the error text. -/
def connectionPatterns : List String :=
  ["connection refused", "connection reset", "connection timeout", "no such host",
   "network is unreachable", "temporary failure", "timeout", "dial", "EOF",
   "connection closed"]

/-- Fatal upstream API patterns of isConnectionError (router.go), matched
case-sensitively on the raw error text. -/
def fatalAPIPatterns : List String :=
  ["missing tensor", "llama runner process has terminated",
   "model runner has unexpectedly stopped"]

/-- isConnectionError (router.go): the error text is lowercased and tested
against the connection patterns, then the raw text is tested against the
fatal API patterns. The nil-error guard of the source is outside the
model: this is only called on error strings. -/
def isConnectionError (errStr : String) : Bool :=
  connectionPatterns.any (fun pat => goContains (goToLower errStr) pat) ||
  fatalAPIPatterns.any (fun pat => goContains errStr pat)

/-- Observable side effects of one router call, in order. -/
inductive REvent where
  | upstreamCall (provider : String)
  | incActive (provider : String)
  | decActive (provider : String)
  | quarantine (provider : String) (reason : String)
deriving DecidableEq, Repr

/-- Whether an event touches an active-completions counter. -/
def REvent.isCounterEvent : REvent → Bool
  | .incActive _ => true
  | .decActive _ => true
  | _ => false

/-- Whether an event is a provider quarantine. -/
def REvent.isQuarantine : REvent → Bool
  | .quarantine _ _ => true
  | _ => false

/-- CreateChatCompletion (router.go): resolve the provider, increment its
active counter (with a deferred decrement that runs on every return
path), call the upstream; on error quarantine when the text matches
isConnectionError and propagate the failure; on success apply the token
counter usage injection (the external estimator, here the parameter
post). Returns the new state, the event log and the outcome. -/
def createChatCompletion {R : Type} (s : RouterState) (upstream : String → Except String R)
    (post : R → R) (model : String) : RouterState × List REvent × Except String R :=
  match getProviderForModel s model with
  | .error e => (s, [], .error e)
  | .ok name =>
    let s1 := incrementActiveCompletions s name
    match upstream name with
    | .error e =>
      let s2 := if isConnectionError e then
          disableProvider s1 name ("connection error: " ++ e) else s1
      (decrementActiveCompletions s2 name,
       [.incActive name, .upstreamCall name] ++
         (if isConnectionError e then [.quarantine name ("connection error: " ++ e)] else []) ++
         [.decActive name],
       .error e)
    | .ok resp =>
      (decrementActiveCompletions s1 name,
       [.incActive name, .upstreamCall name, .decActive name],
       .ok (post resp))

/-- CreateChatCompletionRaw (router.go): same selection, counter and
quarantine discipline as CreateChatCompletion; the raw body is returned
untouched for pass-through (the deferred decrement of the source fires
when the function returns). -/
def createChatCompletionRaw {R : Type} (s : RouterState) (upstream : String → Except String R)
    (model : String) : RouterState × List REvent × Except String R :=
  match getProviderForModel s model with
  | .error e => (s, [], .error e)
  | .ok name =>
    let s1 := incrementActiveCompletions s name
    match upstream name with
    | .error e =>
      let s2 := if isConnectionError e then
          disableProvider s1 name ("connection error: " ++ e) else s1
      (decrementActiveCompletions s2 name,
       [.incActive name, .upstreamCall name] ++
         (if isConnectionError e then [.quarantine name ("connection error: " ++ e)] else []) ++
         [.decActive name],
       .error e)
    | .ok resp =>
      (decrementActiveCompletions s1 name,
       [.incActive name, .upstreamCall name, .decActive name],
       .ok resp)

/-- CreateEmbedding (router.go): resolve the provider and forward; on
error quarantine when the text matches isConnectionError; the active
counter is never touched on this path. -/
def createEmbedding {R : Type} (s : RouterState) (upstream : String → Except String R)
    (model : String) : RouterState × List REvent × Except String R :=
  match getProviderForModel s model with
  | .error e => (s, [], .error e)
  | .ok name =>
    match upstream name with
    | .error e =>
      (if isConnectionError e then disableProvider s name ("connection error: " ++ e) else s,
       [.upstreamCall name] ++
         (if isConnectionError e then [.quarantine name ("connection error: " ++ e)] else []),
       .error e)
    | .ok resp => (s, [.upstreamCall name], .ok resp)

/-- Minimal HTTP reply: status code and body text (http.Error writes the
message as the body). -/
structure HttpReply where
  status : Nat
  body : String
deriving DecidableEq, Repr

/-- The decoded fields of a chat completion request body the handler
dispatches on. A failed JSON decode is Option.none at the call site. -/
structure ChatReqMeta where
  model : String
  stream : Bool
deriving DecidableEq, Repr

/-- HandleChatCompletions with its two branches (router.go): a body that
fails to decode yields 400; a stream request goes through
CreateChatCompletionRaw and maps every failure to a plain 500; a
non-stream request goes through CreateChatCompletion and maps a failure
whose text contains "not found" to 404 with the error text as body,
every other failure to 500. serialize and streamBody stand for the JSON
encoder and the pass-through body. -/
def handleChatCompletions {R B : Type} (s : RouterState) (decoded : Option ChatReqMeta)
    (upstream : String → Except String R) (upstreamRaw : String → Except String B)
    (post : R → R) (serialize : R → String) (streamBody : B → String) :
    RouterState × HttpReply :=
  match decoded with
  | none => (s, ⟨400, "Invalid request body"⟩)
  | some req =>
    if req.stream then
      let out := createChatCompletionRaw s upstreamRaw req.model
      match out.2.2 with
      | .error _ => (out.1, ⟨500, "Internal server error"⟩)
      | .ok raw => (out.1, ⟨200, streamBody raw⟩)
    else
      let out := createChatCompletion s upstream post req.model
      match out.2.2 with
      | .error e =>
        (out.1, if goContains e "not found" then ⟨404, e⟩ else ⟨500, "Internal server error"⟩)
      | .ok r => (out.1, ⟨200, serialize r⟩)

/-- HandleEmbeddings (router.go): failed decode yields 400; a failure
whose text contains "not found" yields 404 with the error text, any
other failure 500. -/
def handleEmbeddings {R : Type} (s : RouterState) (decoded : Option String)
    (upstream : String → Except String R) (serialize : R → String) :
    RouterState × HttpReply :=
  match decoded with
  | none => (s, ⟨400, "Invalid request body"⟩)
  | some model =>
    let out := createEmbedding s upstream model
    match out.2.2 with
    | .error e =>
      (out.1, if goContains e "not found" then ⟨404, e⟩ else ⟨500, "Internal server error"⟩)
    | .ok r => (out.1, ⟨200, serialize r⟩)

/-- Streaming delta of one chunk choice (role and content are the fields
the token counter consumes). -/
structure SDelta where
  role : String
  content : String
deriving DecidableEq, BEq, Repr

/-- One choice of a streamed chunk: its delta and finish_reason. -/
structure SChoice where
  delta : SDelta
  finishReason : String
deriving DecidableEq, BEq, Repr

/-- Usage triple of a chunk. -/
structure SUsage where
  promptTokens : Nat
  completionTokens : Nat
  totalTokens : Nat
deriving DecidableEq, BEq, Repr

/-- Streamed chat completion chunk: choices and optional usage (the
fields handleStreamingChatCompletion reads and rewrites). -/
structure SChunk where
  choices : List SChoice
  usage : Option SUsage
deriving DecidableEq, BEq, Repr

/-- Events written to the HTTP response during streaming pass-through. -/
inductive WEvent where
  | write (s : String)
  | flush
deriving DecidableEq, Repr

/-- One iteration of the scanner loop of handleStreamingChatCompletion
(router.go): a line that starts with "data:" and does not start with
"data: [DONE]" has the "data: " marker trimmed and the remainder JSON
decoded (parse stands for json.Unmarshal into the chunk struct); on a
decoded chunk with at least one choice the first delta feeds the token
counter, and when the first choice has finish_reason "stop" and the
chunk has no usage the chunk is re-serialized with the injected usage;
every other case emits the line unchanged. parse, serialize, feed and
inject stand for the external JSON codec and token estimator. -/
def processLine {K : Type} (parse : String → Option SChunk) (serialize : SChunk → String)
    (feed : K → SDelta → K) (inject : K → SUsage) (tc : K) (line : String) : K × String :=
  if goStartsWith line "data:" && !(goStartsWith line "data: [DONE]") then
    let dataStr := goTrimPre line "data: "
    match parse dataStr with
    | some chunk =>
      match chunk.choices with
      | [] => (tc, line)
      | c :: _ =>
        let tc1 := feed tc c.delta
        if c.finishReason == "stop" && chunk.usage.isNone then
          (tc1, "data: " ++ serialize { chunk with usage := some (inject tc1) })
        else (tc1, line)
    | none => (tc, line)
  else (tc, line)

/-- The scanner loop over the whole upstream body: every line is emitted
through processLine and a flush follows every emitted line. -/
def processStream {K : Type} (parse : String → Option SChunk) (serialize : SChunk → String)
    (feed : K → SDelta → K) (inject : K → SUsage) (tc : K) :
    List String → K × List WEvent
  | [] => (tc, [])
  | line :: rest =>
    let step := processLine parse serialize feed inject tc line
    let r := processStream parse serialize feed inject step.1 rest
    (r.1, WEvent.write step.2 :: WEvent.flush :: r.2)

/-- The emitted lines of the scanner loop, in order, without the flush
events. -/
def outputsOf {K : Type} (parse : String → Option SChunk) (serialize : SChunk → String)
    (feed : K → SDelta → K) (inject : K → SUsage) (tc : K) :
    List String → List String
  | [] => []
  | line :: rest =>
    let step := processLine parse serialize feed inject tc line
    step.2 :: outputsOf parse serialize feed inject step.1 rest

/-- Tool call requested by the model: the tool name and the canonical
JSON serialization of its argument map (json.Marshal is deterministic
and sorts map keys, so the serialization represents the map faithfully
for keying; the arguments are only ever serialized or passed through in
the driver). -/
structure ToolCall where
  name : String
  argsJson : String
deriving DecidableEq, BEq, Repr

/-- toolCallKey (router.go): tool name, a colon, and the JSON of the
arguments. -/
def toolCallKey (name : String) (argsJson : String) : String :=
  name ++ ":" ++ argsJson

/-- Messages of the driver transcript, tagged by the builder that creates
them in the source. -/
inductive DMsg where
  | system (content : String)
  | assistantToolCalls (content : String) (calls : List ToolCall)
  | toolResult (content : String)
  | plain (role content : String)
deriving DecidableEq, Repr

/-- The first-choice message of a chat response, as the driver reads it. -/
structure DMessage where
  content : String
  toolCalls : List ToolCall
deriving DecidableEq, Repr

/-- Chat response as the driver consumes it: the list of choice
messages. -/
structure ChatRespD where
  choices : List DMessage
deriving DecidableEq, Repr

/-- One completion request issued by the driver: the transcript it sends
and the tool list attached to the request (none once tools are
cleared). -/
structure CompletionCall where
  messages : List DMsg
  tools : Option (List String)
deriving DecidableEq, Repr

/-- Errors of the tool-calling driver. -/
inductive DriverErr where
  | upstream (e : String)
  | maxToolIterations (n : Nat)
deriving DecidableEq, Repr

/-- MaxToolCallIterations (router.go). -/
def MaxToolCallIterations : Nat := 20

/-- The fallback system message injected on loop detection (router.go). -/
def loopBreakMsg : String :=
  "The tool has been called multiple times with the same result. Please provide your final answer based on the information gathered."

/-- Count of a key in the recentToolCalls map. -/
def countOf (recent : List (String × Nat)) (k : String) : Nat :=
  (((recent.find? (fun e => e.1 == k))).map (·.2)).getD 0

/-- recentToolCalls[key]++ on the map modelled as an association list. -/
def bumpCount (recent : List (String × Nat)) (k : String) : List (String × Nat) :=
  if (recent.find? (fun e => e.1 == k)).isSome then
    recent.map (fun e => if e.1 == k then (e.1, e.2 + 1) else e)
  else recent ++ [(k, 1)]

/-- The two tool names the driver accepts from the model. -/
def validDriverTool (n : String) : Bool :=
  n == "tool_search" || n == "execute_tool"

/-- Decidable equality for Except values, needed for concrete driver
trace computations. -/
instance exceptDecEq {E A : Type} [DecidableEq E] [DecidableEq A] :
    DecidableEq (Except E A) := fun a b =>
  match a, b with
  | .error x, .error y =>
    if h : x = y then .isTrue (by rw [h]) else .isFalse (by intro hc; cases hc; exact h rfl)
  | .ok x, .ok y =>
    if h : x = y then .isTrue (by rw [h]) else .isFalse (by intro hc; cases hc; exact h rfl)
  | .error _, .ok _ => .isFalse (by intro hc; cases hc)
  | .ok _, .error _ => .isFalse (by intro hc; cases hc)

/-- Full trace of one driver run: its outcome, the completion requests it
issued in order, and the tool calls it actually executed in order. -/
structure DriverTrace where
  result : Except DriverErr ChatRespD
  calls : List CompletionCall
  executed : List ToolCall
deriving DecidableEq, Repr

/-- The multi-turn loop of CreateChatCompletionWithTools (router.go),
fuel-indexed by the remaining iterations: each iteration asks for a
completion with the current transcript; a response without choices or
tool calls (or with no MCP server) is final; tool calls with names other
than tool_search and execute_tool are dropped and only the first valid
call is processed; its key bumps the per-key count; when the count
reaches 3, or the key repeats the immediately previous key with count at
least 2, one system message is appended, the tool list is cleared and
the result of one final completion is returned without executing the
call; otherwise the assistant message carrying the single call and the
tool result are appended and the loop continues. Exhausted fuel is the
MaxToolIterations error. complete and runTool stand for Router Core and
the MCP server. -/
def driverLoop (hasMCP : Bool) (complete : CompletionCall → Except String ChatRespD)
    (runTool : ToolCall → Except String String) (tools : Option (List String)) :
    Nat → List DMsg → List (String × Nat) → String → DriverTrace
  | 0, _, _, _ => ⟨.error (.maxToolIterations MaxToolCallIterations), [], []⟩
  | fuel + 1, msgs, recent, lastKey =>
    let call : CompletionCall := ⟨msgs, tools⟩
    match complete call with
    | .error e => ⟨.error (.upstream e), [call], []⟩
    | .ok resp =>
      match resp.choices with
      | [] => ⟨.ok resp, [call], []⟩
      | msg :: _ =>
        if !hasMCP || msg.toolCalls.isEmpty then ⟨.ok resp, [call], []⟩
        else
          match msg.toolCalls.filter (fun t => validDriverTool t.name) with
          | [] => ⟨.ok resp, [call], []⟩
          | tc :: _ =>
            let key := toolCallKey tc.name tc.argsJson
            let cnt := countOf recent key + 1
            let recent1 := bumpCount recent key
            if cnt ≥ 3 || (key == lastKey && cnt ≥ 2) then
              let finalCall : CompletionCall := ⟨msgs ++ [DMsg.system loopBreakMsg], none⟩
              match complete finalCall with
              | .error e => ⟨.error (.upstream e), [call, finalCall], []⟩
              | .ok r => ⟨.ok r, [call, finalCall], []⟩
            else
              let msgs1 := msgs ++ [DMsg.assistantToolCalls msg.content [tc]]
              match runTool tc with
              | .error e => ⟨.error (.upstream e), [call], []⟩
              | .ok res =>
                let rest := driverLoop hasMCP complete runTool tools fuel
                  (msgs1 ++ [DMsg.toolResult res]) recent1 key
                ⟨rest.result, call :: rest.calls, tc :: rest.executed⟩

/-- CreateChatCompletionWithTools entry (router.go): when the MCP server
is present the request tools become the server tools filtered to
tool_search and execute_tool; the loop starts with an empty accumulator,
an empty last key and the iteration cap as fuel. -/
def createChatCompletionWithTools (hasMCP : Bool) (serverTools : List String)
    (complete : CompletionCall → Except String ChatRespD)
    (runTool : ToolCall → Except String String)
    (reqMessages : List DMsg) (reqTools : Option (List String)) : DriverTrace :=
  let tools := if hasMCP then some (serverTools.filter validDriverTool) else reqTools
  driverLoop hasMCP complete runTool tools MaxToolCallIterations reqMessages [] ""

/-- Calls a script can make against the MCP library result slot
(mcp_library.go); otherCall stands for any library call that does not
set the result. The return values carried here are the strings the
library computes before calling SetResult (for return_object the JSON
serialization, for return_toon the toon encoding). -/
inductive ScriptCall where
  | returnString (s : String)
  | returnObject (jsonText : String)
  | returnToon (encoded : String)
  | otherCall
deriving DecidableEq, Repr

/-- The MCP library state: the result slot (mcp_library.go). -/
structure MCPLibState where
  result : Option String
deriving DecidableEq, Repr

/-- Effect of one script call on the library state: every return_*
builtin calls SetResult, which overwrites the slot unconditionally. -/
def applyScriptCall (st : MCPLibState) : ScriptCall → MCPLibState
  | .returnString s => { st with result := some s }
  | .returnObject j => { st with result := some j }
  | .returnToon e => { st with result := some e }
  | .otherCall => st

/-- Whether a script call sets the result slot. -/
def ScriptCall.setsResult : ScriptCall → Bool
  | .otherCall => false
  | _ => true

/-- executeScriptTool (mcp server): evaluate the script (modelled by its
sequence of library calls plus the captured stdout, the evaluation error
and the inspected non-null final value); when the result slot is set its
string is the exact body of the tool response; otherwise the body is the
captured output followed by an Error suffix on failure, or by the
stringified final expression. -/
def executeScriptTool (calls : List ScriptCall) (output : String)
    (evalErr : Option String) (finalValue : Option String) : String :=
  let lib := calls.foldl applyScriptCall ⟨none⟩
  match lib.result with
  | some s => s
  | none =>
    let resp := if output != "" then output else ""
    match evalErr with
    | some e => resp ++ "\nError: " ++ e
    | none =>
      match finalValue with
      | some v => (if resp.length > 0 then resp ++ "\n" else resp) ++ "Result: " ++ v
      | none => resp

/-- Active-completions counter of a provider as seen through the
registry. -/
def activeOf (s : RouterState) (p : String) : Option Nat :=
  (lookupProv s p).map (·.activeCompletions)

/-- Specification-side weight of a name in the least-loaded comparison:
its active counter, 0 when unregistered. -/
def wOf (s : RouterState) (p : String) : Nat :=
  (activeOf s p).getD 0

/-- Boolean well-formedness of a router state as RefreshModels and
DisableProvider maintain it: every model map entry is nonempty and every
name in it is a nonempty string naming a registered, enabled provider. -/
def goodStateB (s : RouterState) : Bool :=
  s.modelMap.all (fun e => !e.2.isEmpty && e.2.all (fun p =>
    p != "" && (match lookupProv s p with | some prov => prov.enabled | none => false)))

/-- The reachability invariant of the model index (see goodStateB). -/
def GoodState (s : RouterState) : Prop := goodStateB s = true

/-- A provider name appears in no model index entry. -/
def NotInIndex (s : RouterState) (p : String) : Prop := ∀ e ∈ s.modelMap, p ∉ e.2

/-- Router operations that can run between a quarantine and a model
refresh: quarantine, re-admission, and the counter updates done by the
completion paths. Model refresh is deliberately not among them; it is
applied explicitly where a claim involves it. -/
inductive ROp where
  | disable (q reason : String)
  | enable (q : String)
  | incA (q : String)
  | decA (q : String)
deriving DecidableEq, Repr

/-- Apply one router operation. -/
def applyOp (s : RouterState) : ROp → RouterState
  | .disable q reason => disableProvider s q reason
  | .enable q => enableProvider s q
  | .incA q => incrementActiveCompletions s q
  | .decA q => decrementActiveCompletions s q

/-- Apply a sequence of router operations in order. -/
def applyOps (s : RouterState) (ops : List ROp) : RouterState := ops.foldl applyOp s

/-- Specification-side first argmin of a weight over a name list: the
first element attaining the minimal weight, if any. -/
def firstArgmin (w : String → Nat) : List String → Option String
  | [] => none
  | p :: rest =>
    match firstArgmin w rest with
    | none => some p
    | some q => if w q < w p then some q else some p

/-- Demo provider record for concrete instances. -/
def demoProvider (n : String) (healthy : Bool) (active : Nat) : Provider :=
  ⟨n, true, healthy, active, false, [], []⟩

/-- Demo state: one provider a serving model m. -/
def demoStateA : RouterState :=
  ⟨[("a", demoProvider "a" true 0)], [("m", ["a"])], []⟩

/-- Demo state: providers a (active 3) and b (active 1) both serving
model m1. -/
def demoStateAB : RouterState :=
  ⟨[("a", demoProvider "a" true 3), ("b", demoProvider "b" true 1)], [("m1", ["a", "b"])], []⟩

/-- Demo config: one enabled provider p with a static model list [m]. -/
def demoCfgStatic : List ProviderConfig := [⟨"p", true, ["m"], [], []⟩]

/-- The state after quarantining the static provider p and then running
one model refresh with an upstream fetch that never succeeds: the trace
of the C3 counterexample. -/
def c3TraceState : RouterState :=
  refreshModels (disableProvider (initRouter demoCfgStatic) "p"
    "connection error: connection refused") (fun _ => .error "unreachable")

/-- Demo chunk: one choice with finish_reason stop and no usage. -/
def demoChunkStop : SChunk := ⟨[⟨⟨"assistant", "hi"⟩, "stop"⟩], none⟩

/-- Demo JSON decoder: decodes exactly the payload CHUNK. -/
def demoParse : String → Option SChunk :=
  fun s => if s = "CHUNK" then some demoChunkStop else none

/-- Demo JSON encoder, distinguishing chunks with usage. -/
def demoSerialize : SChunk → String :=
  fun c => if c.usage.isSome then "SER-USAGE" else "SER"

/-- Demo token counter: accumulated content length. -/
def demoFeed : Nat → SDelta → Nat := fun k d => k + d.content.length

/-- Demo usage synthesis from the counter. -/
def demoInject : Nat → SUsage := fun k => ⟨7, k, 7 + k⟩

/-- Demo tool call of the driver examples. -/
def demoToolCall : ToolCall := ⟨"tool_search", "q1"⟩

/-- Demo completion oracle: returns the same tool_search call while
tools are attached and a plain answer once they are cleared. -/
def demoComplete : CompletionCall → Except String ChatRespD :=
  fun c => if c.tools = none then .ok ⟨[⟨"done", []⟩]⟩ else .ok ⟨[⟨"", [demoToolCall]⟩]⟩

/-- Demo tool executor: always succeeds. -/
def demoRunTool : ToolCall → Except String String := fun _ => .ok "result"

/-- Completion oracle whose tool-call arguments vary with the transcript
length, so no two iterations share a call key and the driver exhausts
its iteration cap. -/
def capOracle : CompletionCall → Except String ChatRespD :=
  fun c => .ok ⟨[⟨"", [⟨"tool_search", toString c.messages.length⟩]⟩]⟩

/-- Demo script: sets the result slot twice through return_string. -/
def c9Script : List ScriptCall :=
  [.returnString "a", .otherCall, .returnString "b"]

/-! Theorems. General lemmas about the embedding come first, then the
claim theorems with their witnesses and counterexamples. -/

/-- Keyed point update commutes with keyed lookup on association
lists. -/
theorem keyedFind?_update {B : Type} (l : List (String × B)) (n m : String) (f : B → B) :
    ((l.map (fun pr => if pr.1 == n then (pr.1, f pr.2) else pr)).find?
      (fun pr => pr.1 == m)).map (fun pr => pr.2)
    = ((l.find? (fun pr => pr.1 == m)).map (fun pr => pr.2)).map
        (fun b => if m == n then f b else b) := by
  induction l with
  | nil => rfl
  | cons pr rest ih =>
    simp only [List.map_cons, List.find?_cons]
    by_cases hbn : (pr.1 == n) = true
    · have h1 : pr.1 = n := by simpa using hbn
      rw [if_pos hbn]
      by_cases h2 : pr.1 = m
      · have hmn : (m == n) = true := by rw [beq_iff_eq, ← h2, ← h1]
        have hb : ((pr.1, f pr.2).1 == m) = true := by simpa using h2
        have hb2 : (pr.1 == m) = true := by simpa using h2
        simp [hb, hb2, hmn]
      · have hb : ((pr.1, f pr.2).1 == m) = false := by simpa using h2
        have hb2 : (pr.1 == m) = false := by simpa using h2
        simp only [hb, hb2]
        exact ih
    · have h1 : ¬pr.1 = n := by simpa using hbn
      rw [if_neg hbn]
      by_cases h2 : pr.1 = m
      · have hmn : (m == n) = false := by
          rw [beq_eq_false_iff_ne, ← h2]
          exact fun hc => h1 hc
        have hb2 : (pr.1 == m) = true := by simpa using h2
        simp [hb2, hmn]
      · have hb2 : (pr.1 == m) = false := by simpa using h2
        simp only [hb2]
        exact ih

/-- Lookup after a point update: the updated provider is transformed,
all others are unchanged. -/
theorem lookupProv_updateProv (s : RouterState) (n m : String) (f : Provider → Provider) :
    lookupProv (updateProv s n f) m
    = (lookupProv s m).map (fun prov => if m == n then f prov else prov) := by
  unfold lookupProv updateProv
  exact keyedFind?_update s.providers n m f

/-- Lookup of the updated provider itself. -/
theorem lookupProv_update_self (s : RouterState) (n : String) (f : Provider → Provider) :
    lookupProv (updateProv s n f) n = (lookupProv s n).map f := by
  rw [lookupProv_updateProv]
  cases lookupProv s n <;> simp

/-- Lookup of a different provider after a point update. -/
theorem lookupProv_update_ne (s : RouterState) (n m : String) (f : Provider → Provider)
    (h : m ≠ n) : lookupProv (updateProv s n f) m = lookupProv s m := by
  rw [lookupProv_updateProv]
  have hb : (m == n) = false := beq_eq_false_iff_ne.mpr h
  cases lookupProv s m <;> simp [hb]

/-- Point updates do not touch the model map. -/
theorem updateProv_modelMap (s : RouterState) (n : String) (f : Provider → Provider) :
    (updateProv s n f).modelMap = s.modelMap := rfl

/-- Replacing the model map does not touch provider lookup. -/
theorem lookupProv_setMM (s : RouterState) (mm : List (String × List String)) (p : String) :
    lookupProv { s with modelMap := mm } p = lookupProv s p := rfl

/-- Disabling an unregistered provider is a no-op. -/
theorem disableProvider_not_registered (s : RouterState) (n r : String)
    (h : lookupProv s n = none) : disableProvider s n r = s := by
  unfold disableProvider
  rw [h]

/-- Disabling an already-unhealthy provider is a no-op. -/
theorem disableProvider_unhealthy (s : RouterState) (n r : String) (prov : Provider)
    (h : lookupProv s n = some prov) (hh : prov.healthy = false) :
    disableProvider s n r = s := by
  unfold disableProvider
  rw [h]
  simp [hh]

/-- The model map after disabling a healthy provider. -/
theorem disableProvider_modelMap_healthy (s : RouterState) (n r : String) (prov : Provider)
    (h : lookupProv s n = some prov) (hh : prov.healthy = true) :
    (disableProvider s n r).modelMap
    = (s.modelMap.map (fun e => (e.1, e.2.filter (fun q => q != n)))).filter
        (fun e => !e.2.isEmpty) := by
  unfold disableProvider
  rw [h]
  simp [hh]
  rfl

/-- The disabled provider is looked up unhealthy afterwards. -/
theorem lookupProv_disable_self (s : RouterState) (n r : String) (prov : Provider)
    (h : lookupProv s n = some prov) (hh : prov.healthy = true) :
    lookupProv (disableProvider s n r) n = some { prov with healthy := false } := by
  unfold disableProvider
  rw [h]
  simp only [hh]
  rw [if_neg (by simp)]
  rw [lookupProv_setMM, lookupProv_update_self, h]
  rfl

/-- Provider lookup only reads the provider list. -/
theorem lookupProv_congr (s1 s2 : RouterState) (p : String)
    (h : s1.providers = s2.providers) : lookupProv s1 p = lookupProv s2 p := by
  unfold lookupProv
  rw [h]

/-- The provider list after disabling a healthy provider is the point
update of its healthy flag. -/
theorem disableProvider_providers_healthy (s : RouterState) (q r : String) (prov : Provider)
    (h : lookupProv s q = some prov) (hht : prov.healthy = true) :
    (disableProvider s q r).providers
    = (updateProv s q (fun p => { p with healthy := false })).providers := by
  unfold disableProvider
  rw [h]
  dsimp only
  rw [if_neg (by simp [hht])]

/-- Disabling never changes any active-completions counter. -/
theorem activeOf_disableProvider (s : RouterState) (q r p : String) :
    activeOf (disableProvider s q r) p = activeOf s p := by
  cases h : lookupProv s q with
  | none => rw [disableProvider_not_registered s q r h]
  | some prov =>
    by_cases hh : prov.healthy = false
    · rw [disableProvider_unhealthy s q r prov h hh]
    · have hht : prov.healthy = true := by simpa using hh
      unfold activeOf
      rw [lookupProv_congr (disableProvider s q r)
        (updateProv s q (fun p => { p with healthy := false })) p
        (disableProvider_providers_healthy s q r prov h hht)]
      rw [lookupProv_updateProv]
      cases lookupProv s p with
      | none => rfl
      | some a =>
        simp only [Option.map]
        split <;> rfl

/-- A script call that does not set the result leaves the library state
unchanged. -/
theorem applyScriptCall_nonset (st : MCPLibState) (c : ScriptCall)
    (h : c.setsResult = false) : applyScriptCall st c = st := by
  cases c with
  | otherCall => rfl
  | returnString s => simp [ScriptCall.setsResult] at h
  | returnObject j => simp [ScriptCall.setsResult] at h
  | returnToon e => simp [ScriptCall.setsResult] at h

/-- A run of non-setting script calls leaves the library state
unchanged. -/
theorem foldl_applyScriptCall_nonset (post : List ScriptCall) (st : MCPLibState)
    (h : ∀ c ∈ post, c.setsResult = false) : post.foldl applyScriptCall st = st := by
  induction post generalizing st with
  | nil => rfl
  | cons c rest ih =>
    rw [List.foldl_cons, applyScriptCall_nonset st c (h c (by simp)),
      ih st (fun c2 hc2 => h c2 (by simp [hc2]))]

/-- C9 (amended): every return_string call sets the result slot,
overwriting any earlier value (the slot is settable any number of times,
last write wins); when the last result-setting call of the script is
return_string(s), the body of the MCP tool response is exactly the
string s. In particular a script whose only result-setting call is
return_string(s) yields exactly s. -/
theorem c9_return_string_body (calls pre post : List ScriptCall) (s output : String)
    (evalErr finalValue : Option String)
    (hsplit : calls = pre ++ ScriptCall.returnString s :: post)
    (hpost : ∀ c ∈ post, c.setsResult = false) :
    executeScriptTool calls output evalErr finalValue = s := by
  subst hsplit
  unfold executeScriptTool
  rw [List.foldl_append, List.foldl_cons]
  rw [show applyScriptCall (pre.foldl applyScriptCall ⟨none⟩) (ScriptCall.returnString s)
      = (⟨some s⟩ : MCPLibState) from rfl]
  rw [foldl_applyScriptCall_nonset post ⟨some s⟩ hpost]

/-- Witness for C9: the demo script ends in return_string("b") and the
response body is exactly "b". -/
theorem c9_return_string_body_witness :
    executeScriptTool c9Script "" none none = "b" :=
  c9_return_string_body c9Script [ScriptCall.returnString "a", ScriptCall.otherCall] []
    "b" "" none none rfl (by intro c hc; cases hc)

/-- Counterexample for C9 as stated: the demo script calls
return_string("a"), yet the body of the tool response is "b", because a
later return_string overwrote the slot; the slot is not settable only
once. -/
theorem c9_counterexample :
    ScriptCall.returnString "a" ∈ c9Script
    ∧ executeScriptTool c9Script "" none none = "b"
    ∧ ("b" : String) ≠ "a" := by
  refine ⟨by decide, by rfl, by decide⟩

/-- C8: quarantine is idempotent (disabling an unregistered or
already-unhealthy provider changes nothing, and a second disable of the
same provider is absorbed), and after disabling a healthy provider no
model index entry contains its name and no entry is empty. -/
theorem c8_quarantine_idempotent_purge (s : RouterState) (p reason : String) :
    (lookupProv s p = none → disableProvider s p reason = s)
    ∧ (∀ prov, lookupProv s p = some prov → prov.healthy = false →
        disableProvider s p reason = s)
    ∧ (∀ reason2, disableProvider (disableProvider s p reason) p reason2
        = disableProvider s p reason)
    ∧ (∀ prov, lookupProv s p = some prov → prov.healthy = true →
        ∀ e ∈ (disableProvider s p reason).modelMap, p ∉ e.2 ∧ e.2 ≠ []) := by
  refine ⟨fun h => disableProvider_not_registered s p reason h,
    fun prov h hh => disableProvider_unhealthy s p reason prov h hh,
    fun reason2 => ?_, fun prov h hh e he => ?_⟩
  · cases h : lookupProv s p with
    | none =>
      rw [disableProvider_not_registered s p reason h,
        disableProvider_not_registered s p reason2 h]
    | some prov =>
      by_cases hh : prov.healthy = true
      · exact disableProvider_unhealthy (disableProvider s p reason) p reason2
          { prov with healthy := false }
          (lookupProv_disable_self s p reason prov h hh) rfl
      · have hh2 : prov.healthy = false := by simpa using hh
        rw [disableProvider_unhealthy s p reason prov h hh2,
          disableProvider_unhealthy s p reason2 prov h hh2]
  · rw [disableProvider_modelMap_healthy s p reason prov h hh] at he
    have he2 := (List.mem_filter.mp he).2
    obtain ⟨e0, _, rfl⟩ := List.mem_map.mp (List.mem_filter.mp he).1
    refine ⟨fun hp => ?_, fun hemp => ?_⟩
    · have := (List.mem_filter.mp hp).2
      simp at this
    · rw [hemp] at he2
      simp at he2

/-- Witness for C8: a concrete state where p is registered and healthy,
showing idempotence and the purge of all entries mentioning p. -/
theorem c8_quarantine_idempotent_purge_witness :
    disableProvider (disableProvider demoStateA "a" "r") "a" "r2"
      = disableProvider demoStateA "a" "r"
    ∧ ∀ e ∈ (disableProvider demoStateA "a" "r").modelMap, "a" ∉ e.2 ∧ e.2 ≠ [] := by
  refine ⟨(c8_quarantine_idempotent_purge demoStateA "a" "r").2.2.1 "r2",
    fun e he => (c8_quarantine_idempotent_purge demoStateA "a" "r").2.2.2
      (demoProvider "a" true 0) (by rfl) (by rfl) e he⟩

/-- C2 (code bug): the pattern list of isConnectionError contains "EOF",
but the match lowercases the error text before comparing, so the "EOF"
pattern can never match: an upstream failure whose text is an EOF error
is not classified as a transport error and does not quarantine the
selected provider, contradicting the pattern list of the code itself
(and the specification taken from it). The other patterns do match and
do quarantine: with the error "connection refused" the same call
quarantines provider a and purges its models. -/
theorem c2_eof_pattern_never_matches :
    ("EOF" : String) ∈ connectionPatterns
    ∧ isConnectionError "EOF" = false
    ∧ isConnectionError "unexpected EOF" = false
    ∧ isConnectionError "connection refused" = true
    ∧ (createChatCompletion (R := Unit) demoStateA (fun _ => .error "unexpected EOF")
        (fun r => r) "m").2.2 = .error "unexpected EOF"
    ∧ ((createChatCompletion (R := Unit) demoStateA (fun _ => .error "unexpected EOF")
        (fun r => r) "m").2.1.filter REvent.isQuarantine) = []
    ∧ (lookupProv (createChatCompletion (R := Unit) demoStateA
        (fun _ => .error "unexpected EOF") (fun r => r) "m").1 "a").map (·.healthy)
        = some true
    ∧ ((createChatCompletion (R := Unit) demoStateA (fun _ => .error "connection refused")
        (fun r => r) "m").2.1.filter REvent.isQuarantine)
        = [REvent.quarantine "a" "connection error: connection refused"]
    ∧ (lookupProv (createChatCompletion (R := Unit) demoStateA
        (fun _ => .error "connection refused") (fun r => r) "m").1 "a").map (·.healthy)
        = some false := by
  decide

/-- Embedding calls change no active-completions counter. -/
theorem createEmbedding_activeOf {R : Type} (s : RouterState)
    (upstream : String → Except String R) (model p : String) :
    activeOf (createEmbedding s upstream model).1 p = activeOf s p := by
  unfold createEmbedding
  cases hg : getProviderForModel s model with
  | error e => rfl
  | ok name =>
    dsimp only
    cases hu : upstream name with
    | ok r => rfl
    | error e =>
      dsimp only
      split
      · exact activeOf_disableProvider s name _ p
      · rfl

/-- Embedding calls log no counter events. -/
theorem createEmbedding_noCounterEvents {R : Type} (s : RouterState)
    (upstream : String → Except String R) (model : String) :
    ((createEmbedding s upstream model).2.1.filter REvent.isCounterEvent) = [] := by
  unfold createEmbedding
  cases hg : getProviderForModel s model with
  | error e => rfl
  | ok name =>
    dsimp only
    cases hu : upstream name with
    | ok r => rfl
    | error e =>
      dsimp only
      split <;> simp [REvent.isCounterEvent]

/-- C10: neither CreateEmbedding nor the POST /v1/embeddings handler
touches any active-completions counter: the embedding path selects a
provider and forwards without the increment and decrement done by the
completion paths, so embedding traffic never influences least-loaded
selection. -/
theorem c10_embedding_counters_unchanged {R : Type} (s : RouterState)
    (upstream : String → Except String R) (serialize : R → String)
    (decoded : Option String) (model : String) :
    (∀ p, activeOf (createEmbedding s upstream model).1 p = activeOf s p)
    ∧ ((createEmbedding s upstream model).2.1.filter REvent.isCounterEvent) = []
    ∧ (∀ p, activeOf (handleEmbeddings s decoded upstream serialize).1 p = activeOf s p) := by
  refine ⟨fun p => createEmbedding_activeOf s upstream model p,
    createEmbedding_noCounterEvents s upstream model, fun p => ?_⟩
  unfold handleEmbeddings
  cases decoded with
  | none => rfl
  | some m2 =>
    dsimp only
    cases hr : (createEmbedding s upstream m2).2.2 with
    | error e =>
      dsimp only
      exact createEmbedding_activeOf s upstream m2 p
    | ok r =>
      dsimp only
      exact createEmbedding_activeOf s upstream m2 p

/-- C4: streaming pass-through. (a) A line that does not start with
"data:", or starts with the terminator "data: [DONE]", is emitted
unchanged and the token counter is untouched. (b) A "data:" line that is
not terminator-prefixed has the "data: " marker trimmed and decoded;
when the chunk decodes with a first choice, that delta feeds the
counter, and the emitted line is the chunk re-serialized with the
synthesized usage exactly when the first choice has finish_reason "stop"
and the chunk carries no usage, otherwise the original line. (c) Over a
whole body, one line is emitted per input line and a flush follows every
emitted line. -/
theorem c4_streaming_pass_through {K : Type}
    (parse : String → Option SChunk) (serialize : SChunk → String)
    (feed : K → SDelta → K) (inject : K → SUsage) (tc : K) (line : String)
    (lines : List String) :
    ((goStartsWith line "data:" = false ∨ goStartsWith line "data: [DONE]" = true) →
      processLine parse serialize feed inject tc line = (tc, line))
    ∧ (∀ chunk c cs, goStartsWith line "data:" = true →
        goStartsWith line "data: [DONE]" = false →
        parse (goTrimPre line "data: ") = some chunk →
        chunk.choices = c :: cs →
        processLine parse serialize feed inject tc line
        = (feed tc c.delta,
           if c.finishReason == "stop" && chunk.usage.isNone then
             "data: " ++ serialize { chunk with usage := some (inject (feed tc c.delta)) }
           else line))
    ∧ (processStream parse serialize feed inject tc lines).2
      = (outputsOf parse serialize feed inject tc lines).flatMap
          (fun o => [WEvent.write o, WEvent.flush])
    ∧ (outputsOf parse serialize feed inject tc lines).length = lines.length := by
  refine ⟨fun h => ?_, fun chunk c cs h1 h2 hp hc => ?_, ?_, ?_⟩
  · unfold processLine
    rcases h with h | h
    · rw [if_neg (by simp [h])]
    · rw [if_neg (by simp [h])]
  · unfold processLine
    rw [if_pos (by simp [h1, h2])]
    dsimp only
    rw [hp]
    dsimp only
    rw [hc]
    dsimp only
    split <;> rfl
  · induction lines generalizing tc with
    | nil => rfl
    | cons l rest ih =>
      unfold processStream outputsOf
      dsimp only
      rw [ih]
      rfl
  · induction lines generalizing tc with
    | nil => rfl
    | cons l rest ih =>
      unfold outputsOf
      dsimp only
      rw [List.length_cons, ih, List.length_cons]

/-- Witness for C4: a concrete stop chunk with no usage is rewritten
with the synthesized usage and the terminator passes unchanged, each
write followed by a flush. -/
theorem c4_streaming_pass_through_witness :
    processLine demoParse demoSerialize demoFeed demoInject 0 "data: CHUNK"
      = (2, "data: SER-USAGE")
    ∧ (processStream demoParse demoSerialize demoFeed demoInject 0
        ["data: CHUNK", "data: [DONE]"]).2
      = [WEvent.write "data: SER-USAGE", WEvent.flush,
         WEvent.write "data: [DONE]", WEvent.flush] := by
  constructor
  · have h := (c4_streaming_pass_through demoParse demoSerialize demoFeed demoInject 0
      "data: CHUNK" []).2.1 demoChunkStop ⟨⟨"assistant", "hi"⟩, "stop"⟩ []
      (by decide) (by decide) (by decide) rfl
    rw [h]
    decide
  · have h := (c4_streaming_pass_through demoParse demoSerialize demoFeed demoInject 0
      "x" ["data: CHUNK", "data: [DONE]"]).2.2.1
    rw [h]
    decide

/-- C5: one driver iteration with a triggering key. Every processed tool
call is keyed by name, a colon and the JSON of its arguments; when the
incremented count of the first valid call reaches 3, or the key equals
the immediately previous key with a count of at least 2, the driver
appends exactly one system message with the fixed fallback text, clears
the tool list from the request, and returns the result of one final
completion call; the repeated tool call is not executed. -/
theorem c5_duplicate_call_suppression
    (complete : CompletionCall → Except String ChatRespD)
    (runTool : ToolCall → Except String String) (tools : Option (List String))
    (fuel : Nat) (msgs : List DMsg) (recent : List (String × Nat)) (lastKey : String)
    (resp : ChatRespD) (msg : DMessage) (rest : List DMessage)
    (tc : ToolCall) (more : List ToolCall)
    (hcomp : complete ⟨msgs, tools⟩ = .ok resp)
    (hch : resp.choices = msg :: rest)
    (hfilter : msg.toolCalls.filter (fun t => validDriverTool t.name) = tc :: more)
    (htrig : countOf recent (toolCallKey tc.name tc.argsJson) + 1 ≥ 3
      ∨ (toolCallKey tc.name tc.argsJson = lastKey
         ∧ countOf recent (toolCallKey tc.name tc.argsJson) + 1 ≥ 2)) :
    toolCallKey tc.name tc.argsJson = tc.name ++ ":" ++ tc.argsJson
    ∧ driverLoop true complete runTool tools (fuel + 1) msgs recent lastKey
      = ⟨(match complete ⟨msgs ++ [DMsg.system loopBreakMsg], none⟩ with
          | .error e => .error (.upstream e)
          | .ok r => .ok r),
         [⟨msgs, tools⟩, ⟨msgs ++ [DMsg.system loopBreakMsg], none⟩], []⟩ := by
  refine ⟨rfl, ?_⟩
  have hne : msg.toolCalls.isEmpty = false := by
    cases h : msg.toolCalls with
    | nil => rw [h] at hfilter; simp at hfilter
    | cons a b => rfl
  simp only [driverLoop]
  rw [hcomp]
  dsimp only
  rw [hch]
  dsimp only
  rw [if_neg (by simp [hne])]
  rw [hfilter]
  dsimp only
  rw [if_pos ?cond]
  case cond =>
    rcases htrig with h | ⟨hk, hc⟩
    · simp [h]
    · rw [hk] at hc
      rw [hk]
      simp only [beq_self_eq_true, Bool.true_and, Bool.or_eq_true, decide_eq_true_eq]
      omega
  cases complete ⟨msgs ++ [DMsg.system loopBreakMsg], none⟩ <;> rfl

/-- Witness for C5: with the key already counted twice, the next
identical call triggers the fallback: one system message, no tools, the
final completion result, and no executed tool call. -/
theorem c5_duplicate_call_suppression_witness :
    driverLoop true demoComplete demoRunTool (some ["tool_search", "execute_tool"]) 5 []
      [("tool_search:q1", 2)] ""
    = ⟨.ok ⟨[⟨"done", []⟩]⟩,
       [⟨[], some ["tool_search", "execute_tool"]⟩, ⟨[DMsg.system loopBreakMsg], none⟩],
       []⟩ := by
  have h := (c5_duplicate_call_suppression demoComplete demoRunTool
    (some ["tool_search", "execute_tool"]) 4 [] [("tool_search:q1", 2)] ""
    ⟨[⟨"", [demoToolCall]⟩]⟩ ⟨"", [demoToolCall]⟩ [] demoToolCall []
    (by decide) rfl (by decide) (Or.inl (by decide))).2
  rw [h]
  decide

/-- Fuel-indexed bounds of the driver loop: at most one completion call
per iteration plus one for the fallback, at most one executed tool call
per iteration; the run ends in MaxToolIterations exactly when every
iteration executed a tool call and the fuel ran out. -/
theorem driverLoop_fuel_spec (hasMCP : Bool)
    (complete : CompletionCall → Except String ChatRespD)
    (runTool : ToolCall → Except String String) (tools : Option (List String)) :
    ∀ fuel msgs recent lastKey,
    ((driverLoop hasMCP complete runTool tools fuel msgs recent lastKey).calls.length
      ≤ fuel + 1)
    ∧ ((driverLoop hasMCP complete runTool tools fuel msgs recent lastKey).executed.length
      ≤ fuel)
    ∧ ((driverLoop hasMCP complete runTool tools fuel msgs recent lastKey).result
        = .error (.maxToolIterations MaxToolCallIterations) →
        (driverLoop hasMCP complete runTool tools fuel msgs recent lastKey).calls.length
          = fuel
        ∧ (driverLoop hasMCP complete runTool tools fuel msgs recent lastKey).executed.length
          = fuel)
    ∧ ((driverLoop hasMCP complete runTool tools fuel msgs recent lastKey).executed.length
        = fuel →
        (driverLoop hasMCP complete runTool tools fuel msgs recent lastKey).result
        = .error (.maxToolIterations MaxToolCallIterations)) := by
  intro fuel
  induction fuel with
  | zero =>
    intro msgs recent lastKey
    exact ⟨by simp [driverLoop], by simp [driverLoop], fun _ => ⟨rfl, rfl⟩, fun _ => rfl⟩
  | succ n ih =>
    intro msgs recent lastKey
    simp only [driverLoop]
    cases hc : complete ⟨msgs, tools⟩ with
    | error e =>
      refine ⟨by simp, by simp, fun hres => ?_, fun hlen => ?_⟩
      · simp at hres
      · simp at hlen
    | ok resp =>
      dsimp only
      cases hch : resp.choices with
      | nil =>
        dsimp only
        refine ⟨by simp, by simp, fun hres => ?_, fun hlen => ?_⟩
        · simp at hres
        · simp at hlen
      | cons msg rest =>
        dsimp only
        by_cases hmc : (!hasMCP || msg.toolCalls.isEmpty) = true
        · rw [if_pos hmc]
          refine ⟨by simp, by simp, fun hres => ?_, fun hlen => ?_⟩
          · simp at hres
          · simp at hlen
        · rw [if_neg hmc]
          cases hf : msg.toolCalls.filter (fun t => validDriverTool t.name) with
          | nil =>
            refine ⟨by simp, by simp, fun hres => ?_, fun hlen => ?_⟩
            · simp at hres
            · simp at hlen
          | cons tc more =>
            dsimp only
            by_cases htr : ((decide (countOf recent (toolCallKey tc.name tc.argsJson) + 1 ≥ 3))
                || ((toolCallKey tc.name tc.argsJson == lastKey)
                  && decide (countOf recent (toolCallKey tc.name tc.argsJson) + 1 ≥ 2))) = true
            · rw [if_pos htr]
              cases hfc : complete ⟨msgs ++ [DMsg.system loopBreakMsg], none⟩ with
              | error e =>
                dsimp only
                refine ⟨by simp, by simp, fun hres => ?_, fun hlen => ?_⟩
                · simp at hres
                · simp at hlen
              | ok r =>
                dsimp only
                refine ⟨by simp, by simp, fun hres => ?_, fun hlen => ?_⟩
                · simp at hres
                · simp at hlen
            · rw [if_neg htr]
              cases hrt : runTool tc with
              | error e =>
                dsimp only
                refine ⟨by simp, by simp, fun hres => ?_, fun hlen => ?_⟩
                · simp at hres
                · simp at hlen
              | ok res =>
                dsimp only
                obtain ⟨ih1, ih2, ih3, ih4⟩ :=
                  ih (msgs ++ [DMsg.assistantToolCalls msg.content [tc]] ++ [DMsg.toolResult res])
                    (bumpCount recent (toolCallKey tc.name tc.argsJson))
                    (toolCallKey tc.name tc.argsJson)
                refine ⟨by simpa using Nat.succ_le_succ ih1, by simpa using Nat.succ_le_succ ih2,
                  fun hres => ?_, fun hlen => ?_⟩
                · obtain ⟨hc1, hc2⟩ := ih3 hres
                  exact ⟨by simpa using congrArg Nat.succ hc1, by simpa using congrArg Nat.succ hc2⟩
                · exact ih4 (by simpa using hlen)

/-- C7: the driver loop has an iteration cap of 20: at most one executed
tool call per iteration and at most the cap plus one completion calls
(the one extra being the loop-suppression fallback); the run ends in the
MaxToolIterations error, which carries no completion response, exactly
when all 20 iterations executed a tool call without producing a final
response, and in that case exactly 20 completion calls were made. -/
theorem c7_iteration_cap (hasMCP : Bool) (serverTools : List String)
    (complete : CompletionCall → Except String ChatRespD)
    (runTool : ToolCall → Except String String)
    (reqMessages : List DMsg) (reqTools : Option (List String)) :
    MaxToolCallIterations = 20
    ∧ (createChatCompletionWithTools hasMCP serverTools complete runTool reqMessages
        reqTools).executed.length ≤ MaxToolCallIterations
    ∧ (createChatCompletionWithTools hasMCP serverTools complete runTool reqMessages
        reqTools).calls.length ≤ MaxToolCallIterations + 1
    ∧ ((createChatCompletionWithTools hasMCP serverTools complete runTool reqMessages
        reqTools).result = .error (.maxToolIterations MaxToolCallIterations)
       ↔ (createChatCompletionWithTools hasMCP serverTools complete runTool reqMessages
        reqTools).executed.length = MaxToolCallIterations)
    ∧ ((createChatCompletionWithTools hasMCP serverTools complete runTool reqMessages
        reqTools).result = .error (.maxToolIterations MaxToolCallIterations) →
       (createChatCompletionWithTools hasMCP serverTools complete runTool reqMessages
        reqTools).calls.length = MaxToolCallIterations) := by
  obtain ⟨h1, h2, h3, h4⟩ := driverLoop_fuel_spec hasMCP complete runTool
    (if hasMCP then some (serverTools.filter validDriverTool) else reqTools)
    MaxToolCallIterations reqMessages [] ""
  exact ⟨rfl, h2, h1, ⟨fun hres => (h3 hres).2, h4⟩, fun hres => (h3 hres).1⟩

/-- Witness for C7: an oracle that requests a fresh tool call on every
turn drives the loop through all 20 iterations and the driver returns
the MaxToolIterations error after exactly 20 completion calls and 20
tool executions. -/
theorem c7_iteration_cap_witness :
    (createChatCompletionWithTools true ["tool_search", "execute_tool"] capOracle
      demoRunTool [] none).result = .error (.maxToolIterations 20)
    ∧ (createChatCompletionWithTools true ["tool_search", "execute_tool"] capOracle
      demoRunTool [] none).executed.length = 20
    ∧ (createChatCompletionWithTools true ["tool_search", "execute_tool"] capOracle
      demoRunTool [] none).calls.length = 20 := by
  have h := c7_iteration_cap true ["tool_search", "execute_tool"] capOracle
    demoRunTool [] none
  have hres : (createChatCompletionWithTools true ["tool_search", "execute_tool"] capOracle
      demoRunTool [] none).result = .error (.maxToolIterations 20) := by decide
  exact ⟨hres, h.2.2.2.1.mp hres, h.2.2.2.2 hres⟩

/-- C6 (amended): for POST /v1/chat/completions, a body that fails JSON
decoding yields 400. For a non-streaming request, a completion error
whose text contains "not found" yields 404 with the error text as the
response message and every other completion error yields 500; the
unknown-model failure is the error "model <id> not found in any
provider", which contains the model id and the "not found" marker, so it
yields 404. A streaming request maps every completion failure, the
unknown-model failure included, to a plain 500. -/
theorem c6_status_mapping {R B : Type} (s : RouterState)
    (upstream : String → Except String R) (upstreamRaw : String → Except String B)
    (post : R → R) (serialize : R → String) (streamBody : B → String)
    (model : String) :
    (handleChatCompletions s none upstream upstreamRaw post serialize streamBody
      = (s, ⟨400, "Invalid request body"⟩))
    ∧ (∀ e, (createChatCompletion s upstream post model).2.2 = .error e →
        (handleChatCompletions s (some ⟨model, false⟩) upstream upstreamRaw post serialize
          streamBody).2
        = if goContains e "not found" then ⟨404, e⟩ else ⟨500, "Internal server error"⟩)
    ∧ (∀ r, (createChatCompletion s upstream post model).2.2 = .ok r →
        (handleChatCompletions s (some ⟨model, false⟩) upstream upstreamRaw post serialize
          streamBody).2 = ⟨200, serialize r⟩)
    ∧ (∀ e, (createChatCompletionRaw s upstreamRaw model).2.2 = .error e →
        (handleChatCompletions s (some ⟨model, true⟩) upstream upstreamRaw post serialize
          streamBody).2 = ⟨500, "Internal server error"⟩)
    ∧ (lookupModel s model = none →
        (createChatCompletion s upstream post model).2.2
        = .error ("model " ++ model ++ " not found in any provider")) := by
  refine ⟨rfl, fun e he => ?_, fun r hr => ?_, fun e he => ?_, fun hlm => ?_⟩
  · unfold handleChatCompletions
    dsimp only
    rw [if_neg (by simp)]
    rw [he]
  · unfold handleChatCompletions
    dsimp only
    rw [if_neg (by simp)]
    rw [hr]
  · unfold handleChatCompletions
    dsimp only
    rw [if_pos (by simp)]
    rw [he]
  · unfold createChatCompletion getProviderForModel
    rw [hlm]

/-- Witness for C6: the unknown model zzz yields 404 and the response
message contains the model id. -/
theorem c6_status_mapping_witness :
    (handleChatCompletions (R := Unit) (B := Unit) demoStateA (some ⟨"zzz", false⟩)
      (fun _ => .error "ignored") (fun _ => .error "x") (fun r => r) (fun _ => "json")
      (fun _ => "body")).2
    = ⟨404, "model zzz not found in any provider"⟩
    ∧ goContains "model zzz not found in any provider" "zzz" = true := by
  have h := c6_status_mapping (R := Unit) (B := Unit) demoStateA
    (fun _ => .error "ignored") (fun _ => .error "x") (fun r => r) (fun _ => "json")
    (fun _ => "body") "zzz"
  refine ⟨?_, by decide⟩
  rw [h.2.1 "model zzz not found in any provider" (h.2.2.2.2 rfl)]
  decide

/-- Counterexample for C6 as stated: an upstream failure that is not the
unknown-model error but whose text contains "not found" (an upstream 404
body echoed by the client) is mapped to 404, where the claim demands
500; and a streaming request for an unknown model is mapped to 500,
where the claim demands 404. -/
theorem c6_counterexample :
    (createChatCompletion (R := Unit) demoStateA
      (fun _ => .error "API returned status 404: 404 page not found") (fun r => r)
      "m").2.2
      = .error "API returned status 404: 404 page not found"
    ∧ "API returned status 404: 404 page not found"
        ≠ "model m not found in any provider"
    ∧ (handleChatCompletions (R := Unit) (B := Unit) demoStateA (some ⟨"m", false⟩)
        (fun _ => .error "API returned status 404: 404 page not found")
        (fun _ => .error "x") (fun r => r) (fun _ => "json") (fun _ => "body")).2
      = ⟨404, "API returned status 404: 404 page not found"⟩
    ∧ (404 : Nat) ≠ 500
    ∧ (handleChatCompletions (R := Unit) (B := Unit) demoStateA (some ⟨"zzz", true⟩)
        (fun _ => .error "x") (fun _ => .error "x") (fun r => r) (fun _ => "json")
        (fun _ => "body")).2
      = ⟨500, "Internal server error"⟩ := by
  decide

/-- Unpacked form of the model index invariant. -/
theorem goodState_spec (s : RouterState) (hs : GoodState s) :
    ∀ e ∈ s.modelMap, e.2 ≠ [] ∧ ∀ p ∈ e.2, p ≠ ""
      ∧ ∃ prov, lookupProv s p = some prov ∧ prov.enabled = true := by
  intro e he
  unfold GoodState goodStateB at hs
  rw [List.all_eq_true] at hs
  have h1 := hs e he
  rw [Bool.and_eq_true] at h1
  obtain ⟨h2, h3⟩ := h1
  refine ⟨by simpa using h2, fun p hp => ?_⟩
  rw [List.all_eq_true] at h3
  have h4 := h3 p hp
  rw [Bool.and_eq_true] at h4
  obtain ⟨h5, h6⟩ := h4
  refine ⟨by simpa using h5, ?_⟩
  cases hl : lookupProv s p with
  | none => rw [hl] at h6; simp at h6
  | some prov =>
    rw [hl] at h6
    exact ⟨prov, rfl, by simpa using h6⟩

/-- A model index lookup result is a member entry of the map. -/
theorem lookupModel_mem (s : RouterState) (m : String) (ps : List String)
    (h : lookupModel s m = some ps) : ∃ e, e ∈ s.modelMap ∧ e.2 = ps := by
  unfold lookupModel at h
  cases hf : s.modelMap.find? (fun e => e.1 == m) with
  | none => rw [hf] at h; simp at h
  | some e =>
    rw [hf] at h
    exact ⟨e, List.mem_of_find?_eq_some hf, by simpa using h⟩

/-- The loop body applied to the sentinel accumulator always takes a
registered enabled provider. -/
theorem llStep_sentinel (s : RouterState) (p : String) (prov : Provider)
    (hl : lookupProv s p = some prov) (he : prov.enabled = true) :
    llStep s ("", -1) p = (p, (prov.activeCompletions : Int)) := by
  unfold llStep
  rw [hl]
  simp [he]

/-- The loop body on a non-sentinel accumulator replaces it exactly on a
strictly smaller counter. -/
theorem llStep_nat (s : RouterState) (p : String) (prov : Provider)
    (hl : lookupProv s p = some prov) (he : prov.enabled = true) (n : String) (m : Nat) :
    llStep s (n, (m : Int)) p
    = if prov.activeCompletions < m then (p, (prov.activeCompletions : Int))
      else (n, (m : Int)) := by
  unfold llStep
  rw [hl]
  dsimp only
  rw [he]
  rw [if_neg (by simp)]
  have hm : (((m : Nat) : Int) == -1) = false := by
    rw [beq_eq_false_iff_ne]
    omega
  rw [hm]
  by_cases hlt : prov.activeCompletions < m
  · rw [if_pos (by simp [hlt]), if_pos hlt]
  · rw [if_neg (by simp [hlt]), if_neg hlt]

/-- firstArgmin is none only on the empty list. -/
theorem firstArgmin_none (w : String → Nat) (ps : List String)
    (h : firstArgmin w ps = none) : ps = [] := by
  cases ps with
  | nil => rfl
  | cons p rest =>
    simp only [firstArgmin] at h
    cases hfa : firstArgmin w rest with
    | none =>
      rw [hfa] at h
      dsimp only at h
      cases h
    | some q2 =>
      rw [hfa] at h
      dsimp only at h
      split at h <;> cases h

/-- firstArgmin returns the first element attaining the minimal
weight. -/
theorem firstArgmin_spec (w : String → Nat) : ∀ (ps : List String) (q : String),
    firstArgmin w ps = some q →
    ∃ pre post, ps = pre ++ q :: post ∧ (∀ r ∈ ps, w q ≤ w r) ∧ ∀ r ∈ pre, w q < w r := by
  intro ps
  induction ps with
  | nil => intro q h; simp [firstArgmin] at h
  | cons p rest ih =>
    intro q h
    simp only [firstArgmin] at h
    cases hfa : firstArgmin w rest with
    | none =>
      rw [hfa] at h
      dsimp only at h
      have hre : rest = [] := firstArgmin_none w rest hfa
      subst hre
      cases h
      refine ⟨[], [], rfl, ?_, by intro r hr; cases hr⟩
      intro r hr
      rcases List.mem_cons.mp hr with rfl | hr2
      · exact Nat.le_refl _
      · cases hr2
    | some q2 =>
      rw [hfa] at h
      dsimp only at h
      by_cases hq : w q2 < w p
      · rw [if_pos hq] at h
        cases h
        obtain ⟨pre2, post2, hsplit, hmin, hpre⟩ := ih _ hfa
        refine ⟨p :: pre2, post2, by rw [hsplit]; rfl, ?_, ?_⟩
        · intro r hr
          rcases List.mem_cons.mp hr with rfl | hr2
          · exact Nat.le_of_lt hq
          · exact hmin r hr2
        · intro r hr
          rcases List.mem_cons.mp hr with rfl | hr2
          · exact hq
          · exact hpre r hr2
      · rw [if_neg hq] at h
        cases h
        obtain ⟨pre2, post2, hsplit, hmin, hpre⟩ := ih _ hfa
        refine ⟨[], rest, rfl, ?_, by intro r hr; cases hr⟩
        intro r hr
        rcases List.mem_cons.mp hr with rfl | hr2
        · exact Nat.le_refl _
        · exact Nat.le_trans (Nat.le_of_not_lt hq) (hmin r hr2)

/-- The least-loaded fold from a non-sentinel accumulator computes the
first argmin when all names are registered and enabled. -/
theorem llFold_nat (s : RouterState) : ∀ (ps : List String),
    (∀ p ∈ ps, ∃ prov, lookupProv s p = some prov ∧ prov.enabled = true) →
    ∀ (n : String) (m : Nat),
    ps.foldl (llStep s) (n, (m : Int))
    = match firstArgmin (wOf s) ps with
      | none => (n, (m : Int))
      | some q => if wOf s q < m then (q, ((wOf s q) : Int)) else (n, (m : Int)) := by
  intro ps
  induction ps with
  | nil => intro h n m; rfl
  | cons p rest ih =>
    intro h n m
    obtain ⟨prov, hl, he⟩ := h p (by simp)
    have hw : prov.activeCompletions = wOf s p := by
      unfold wOf activeOf
      rw [hl]
      rfl
    have hrest : ∀ p2 ∈ rest, ∃ prov2, lookupProv s p2 = some prov2 ∧ prov2.enabled = true :=
      fun p2 hp2 => h p2 (by simp [hp2])
    rw [List.foldl_cons, llStep_nat s p prov hl he n m]
    by_cases hlt : prov.activeCompletions < m
    · rw [if_pos hlt]
      rw [hw]
      rw [ih hrest p (wOf s p)]
      simp only [firstArgmin]
      cases hfa : firstArgmin (wOf s) rest with
      | none =>
        dsimp only
        rw [if_pos (by omega)]
      | some q =>
        dsimp only
        by_cases hq : wOf s q < wOf s p
        · rw [if_pos hq, if_pos hq]
          try dsimp only
          try rw [if_pos (by omega)]
        · rw [if_neg hq, if_neg hq]
          try dsimp only
          try rw [if_pos (by omega)]
    · rw [if_neg hlt]
      rw [ih hrest n m]
      simp only [firstArgmin]
      cases hfa : firstArgmin (wOf s) rest with
      | none =>
        dsimp only
        rw [if_neg (by omega)]
      | some q =>
        dsimp only
        by_cases hq : wOf s q < wOf s p
        · rw [if_pos hq]
          try dsimp only
        · rw [if_neg hq]
          try dsimp only
          try rw [if_neg (show ¬wOf s p < m by omega)]
          try rw [if_neg (show ¬wOf s q < m by omega)]

/-- On a nonempty list of registered enabled names, the least-loaded
scan returns the first argmin of the active counters. -/
theorem leastLoadedFold_spec (s : RouterState) (ps : List String)
    (hOK : ∀ p ∈ ps, ∃ prov, lookupProv s p = some prov ∧ prov.enabled = true)
    (hne : ps ≠ []) :
    ∃ q, firstArgmin (wOf s) ps = some q
      ∧ leastLoadedFold s ps = (q, ((wOf s q) : Int)) := by
  cases ps with
  | nil => exact absurd rfl hne
  | cons a tail =>
    obtain ⟨prov, hla, hea⟩ := hOK a (by simp)
    have hwa : prov.activeCompletions = wOf s a := by
      unfold wOf activeOf
      rw [hla]
      rfl
    unfold leastLoadedFold
    rw [List.foldl_cons, llStep_sentinel s a prov hla hea, hwa]
    rw [llFold_nat s tail (fun p hp => hOK p (by simp [hp])) a (wOf s a)]
    simp only [firstArgmin]
    cases hfa : firstArgmin (wOf s) tail with
    | none => exact ⟨a, rfl, rfl⟩
    | some q0 =>
      dsimp only
      by_cases hq : wOf s q0 < wOf s a
      · rw [if_pos hq, if_pos hq]
        exact ⟨q0, rfl, rfl⟩
      · rw [if_neg hq, if_neg hq]
        exact ⟨a, rfl, rfl⟩

/-- C1: provider selection on a well-formed index. A model with exactly
one provider name yields that name. A model with two or more names
yields the registered enabled provider with the minimum active counter,
the first in slice order on ties. A model absent from the index, or one
none of whose providers is registered and enabled, fails with the
unknown-model error "model <id> not found in any provider" (under the
index invariant the second case cannot arise, so the unknown-model error
is the only failure). -/
theorem c1_select_provider (s : RouterState) (m : String) (hs : GoodState s) :
    (∀ p, lookupModel s m = some [p] → getProviderForModel s m = .ok p)
    ∧ (∀ ps, lookupModel s m = some ps → 2 ≤ ps.length →
        ∃ q pre post, getProviderForModel s m = .ok q ∧ ps = pre ++ q :: post
          ∧ (∀ r ∈ ps, wOf s q ≤ wOf s r)
          ∧ (∀ r ∈ pre, wOf s q < wOf s r)
          ∧ ∃ prov, lookupProv s q = some prov ∧ prov.enabled = true)
    ∧ ((lookupModel s m = none
        ∨ (∃ ps, lookupModel s m = some ps
            ∧ ∀ p ∈ ps, ¬∃ prov, lookupProv s p = some prov ∧ prov.enabled = true)) →
        getProviderForModel s m = .error ("model " ++ m ++ " not found in any provider")) := by
  refine ⟨fun p h => ?_, fun ps hps hlen => ?_, fun h => ?_⟩
  · unfold getProviderForModel
    rw [h]
  · obtain ⟨e, he, he2⟩ := lookupModel_mem s m ps hps
    obtain ⟨hne0, hall⟩ := goodState_spec s hs e he
    rw [he2] at hne0 hall
    have hOK : ∀ p ∈ ps, ∃ prov, lookupProv s p = some prov ∧ prov.enabled = true :=
      fun p hp => (hall p hp).2
    cases ps with
    | nil => simp at hlen
    | cons a tail =>
    cases tail with
    | nil => simp at hlen
    | cons b rest =>
    obtain ⟨q0, hfa, hll⟩ := leastLoadedFold_spec s (a :: b :: rest) hOK (by simp)
    obtain ⟨pre, post, hsplit, hmin, hpre⟩ := firstArgmin_spec (wOf s) (a :: b :: rest) q0 hfa
    have hqmem : q0 ∈ a :: b :: rest := by
      rw [hsplit]
      exact List.mem_append_right _ (List.mem_cons_self q0 post)
    have hqne : q0 ≠ "" := (hall q0 hqmem).1
    unfold getProviderForModel
    rw [hps]
    dsimp only
    rw [hll]
    dsimp only
    rw [if_neg (by simp [hqne])]
    exact ⟨q0, pre, post, rfl, hsplit, hmin, hpre, (hall q0 hqmem).2⟩
  · rcases h with h | ⟨ps, hps, hnone⟩
    · unfold getProviderForModel
      rw [h]
    · obtain ⟨e, he, he2⟩ := lookupModel_mem s m ps hps
      obtain ⟨hne0, hall⟩ := goodState_spec s hs e he
      rw [he2] at hne0 hall
      cases ps with
      | nil => exact absurd rfl hne0
      | cons a tail => exact absurd (hall a (by simp)).2 (hnone a (by simp))

/-- Witness for C1: with a (active 3) and b (active 1) both serving m1,
selection returns b, the least-loaded first argmin. -/
theorem c1_select_provider_witness :
    ∃ q pre post, getProviderForModel demoStateAB "m1" = .ok q
      ∧ ["a", "b"] = pre ++ q :: post
      ∧ (∀ r ∈ ["a", "b"], wOf demoStateAB q ≤ wOf demoStateAB r)
      ∧ (∀ r ∈ pre, wOf demoStateAB q < wOf demoStateAB r)
      ∧ ∃ prov, lookupProv demoStateAB q = some prov ∧ prov.enabled = true :=
  (c1_select_provider demoStateAB "m1" (by unfold GoodState; decide)).2.1 ["a", "b"] rfl
    (by decide)

/-- The name returned by the least-loaded fold is the starting
accumulator name or a member of the scanned list. -/
theorem llFold_mem (s : RouterState) : ∀ (ps : List String) (acc : String × Int),
    (ps.foldl (llStep s) acc).1 = acc.1 ∨ (ps.foldl (llStep s) acc).1 ∈ ps := by
  intro ps
  induction ps with
  | nil => intro acc; left; rfl
  | cons p rest ih =>
    intro acc
    rw [List.foldl_cons]
    have hstep : (llStep s acc p).1 = acc.1 ∨ (llStep s acc p).1 = p := by
      unfold llStep
      cases lookupProv s p with
      | none => left; rfl
      | some prov =>
        dsimp only
        split
        · left; rfl
        · split
          · right; rfl
          · left; rfl
    rcases ih (llStep s acc p) with h | h
    · rcases hstep with h2 | h2
      · left; rw [h, h2]
      · right; rw [h, h2]; exact List.mem_cons_self p rest
    · right; exact List.mem_cons_of_mem p h

/-- A successful selection returns a member of the model index entry. -/
theorem getProviderForModel_ok_mem (s : RouterState) (m q : String)
    (h : getProviderForModel s m = .ok q) :
    ∃ ps, lookupModel s m = some ps ∧ q ∈ ps := by
  unfold getProviderForModel at h
  cases hl : lookupModel s m with
  | none => rw [hl] at h; cases h
  | some ps =>
    rw [hl] at h
    dsimp only at h
    refine ⟨ps, rfl, ?_⟩
    cases ps with
    | nil =>
      dsimp only at h
      rw [if_pos (by rfl)] at h
      cases h
    | cons p1 tail =>
      cases tail with
      | nil =>
        cases h
        exact List.mem_cons_self _ _
      | cons p2 rest =>
        dsimp only at h
        by_cases hz : ((leastLoadedFold s (p1 :: p2 :: rest)).1 == "") = true
        · rw [if_pos hz] at h
          cases h
        · rw [if_neg hz] at h
          cases h
          rcases llFold_mem s (p1 :: p2 :: rest) ("", -1) with h2 | h2
          · have hempty : (leastLoadedFold s (p1 :: p2 :: rest)).1 = "" := by
              unfold leastLoadedFold
              exact h2
            exact absurd (show ((leastLoadedFold s (p1 :: p2 :: rest)).1 == "") = true by
              rw [hempty]; rfl) hz
          · exact h2

/-- Enabling never touches the model map. -/
theorem enableProvider_modelMap (s : RouterState) (n : String) :
    (enableProvider s n).modelMap = s.modelMap := by
  unfold enableProvider
  cases lookupProv s n with
  | none => rfl
  | some prov =>
    dsimp only
    split <;> rfl

/-- Absence from every index entry survives the non-refresh router
operations. -/
theorem notInIndex_applyOp (s : RouterState) (p : String) (op : ROp)
    (h : NotInIndex s p) : NotInIndex (applyOp s op) p := by
  cases op with
  | disable q reason =>
    intro e he
    simp only [applyOp] at he
    cases hl : lookupProv s q with
    | none => exact h e (by rwa [disableProvider_not_registered s q reason hl] at he)
    | some prov =>
      by_cases hh : prov.healthy = false
      · exact h e (by rwa [disableProvider_unhealthy s q reason prov hl hh] at he)
      · have hht : prov.healthy = true := by simpa using hh
        rw [disableProvider_modelMap_healthy s q reason prov hl hht] at he
        obtain ⟨e0, he0, rfl⟩ := List.mem_map.mp (List.mem_filter.mp he).1
        intro hp
        exact h e0 he0 (List.mem_filter.mp hp).1
  | enable q =>
    intro e he
    simp only [applyOp] at he
    rw [enableProvider_modelMap] at he
    exact h e he
  | incA q =>
    intro e he
    exact h e he
  | decA q =>
    intro e he
    exact h e he

/-- Absence from every index entry survives any sequence of non-refresh
router operations. -/
theorem notInIndex_applyOps (s : RouterState) (p : String) (ops : List ROp)
    (h : NotInIndex s p) : NotInIndex (applyOps s ops) p := by
  induction ops generalizing s with
  | nil => exact h
  | cons op rest ih => exact ih (applyOp s op) (notInIndex_applyOp s p op h)

/-- Quarantining a healthy provider removes it from every index
entry. -/
theorem disable_healthy_notInIndex (s : RouterState) (p r : String) (prov : Provider)
    (hl : lookupProv s p = some prov) (hht : prov.healthy = true) :
    NotInIndex (disableProvider s p r) p := by
  intro e he
  rw [disableProvider_modelMap_healthy s p r prov hl hht] at he
  obtain ⟨e0, he0, rfl⟩ := List.mem_map.mp (List.mem_filter.mp he).1
  intro hp
  have := (List.mem_filter.mp hp).2
  simp at this

/-- Selection never returns a name absent from every index entry. -/
theorem notInIndex_select (s : RouterState) (p m : String) (h : NotInIndex s p) :
    getProviderForModel s m ≠ .ok p := by
  intro hok
  obtain ⟨ps, hl, hq⟩ := getProviderForModel_ok_mem s m p hok
  obtain ⟨e, he, he2⟩ := lookupModel_mem s m ps hl
  exact h e he (he2 ▸ hq)

/-- C3 (amended): after quarantining a healthy provider p, no Select
result returns p as long as only non-refresh operations run (further
quarantines, re-admissions by the health reconciler, and active-counter
updates), because the quarantine purged p from every index entry and
none of these operations re-inserts it; in particular even a bare
re-admission does not make Select return p until a model refresh
re-inserts its models. A model refresh can re-insert p: for a static
provider it does so even while p is still unhealthy, without any
re-admission by the health reconciler (see the counterexample). -/
theorem c3_quarantine_excludes_select (s : RouterState) (p reason : String)
    (prov : Provider) (hl : lookupProv s p = some prov) (hh : prov.healthy = true)
    (ops : List ROp) (m : String) :
    getProviderForModel (applyOps (disableProvider s p reason) ops) m ≠ .ok p :=
  notInIndex_select _ p m
    (notInIndex_applyOps _ p ops (disable_healthy_notInIndex s p reason prov hl hh))

/-- Witness for C3: after quarantining a, even an explicit re-admission
does not make Select return a. -/
theorem c3_quarantine_excludes_select_witness :
    getProviderForModel (applyOps (disableProvider demoStateA "a" "connection error: x")
      [ROp.enable "a"]) "m" ≠ .ok "a" :=
  c3_quarantine_excludes_select demoStateA "a" "connection error: x"
    (demoProvider "a" true 0) rfl rfl [ROp.enable "a"] "m"

/-- Counterexample for C3 as stated: the static provider p is
quarantined, the health reconciler never re-admits it (it is still
unhealthy), yet after one model refresh Select returns p, because the
static branch of RefreshModels re-inserts configured models without a
health check. -/
theorem c3_counterexample :
    getProviderForModel c3TraceState "m" = .ok "p"
    ∧ (lookupProv c3TraceState "p").map (·.healthy) = some false := by
  decide
